import Mathlib

/-!
Verification development for the monomarket service: a shallow embedding of
the transaction-issuance engine (src/backend.rs), the event-ingestion and
state-projection pipeline (src/chain_events.rs) and the client session
handlers (src/ws.rs, src/ws_axum.rs), together with theorems about their
behaviour.

Modelling conventions:
- Ethereum addresses and 256-bit transaction hashes are modelled as Nat;
  the default hash (B256 default) is 0.
- u64 / U256 quantities are modelled as Nat; the concrete values involved
  (nonces, wei amounts, prices) stay far below any overflow boundary.
- Fallible ledger RPC calls are modelled as functions returning
  Except String, mirroring the Rust question-mark propagation sites; since
  the source mutates the shared AppState in place, each embedded operation
  returns the state it left behind together with an Except outcome, so an
  early error return still reports the mutations done before the error.
- The receipt polling loop (get_transaction_receipt until Some, sleeping
  200ms between polls) is modelled by a function TxHash -> Except String
  Bool: ok carries the eventual receipt status (the source loops until a
  receipt exists, so only the final status is observable) and error is an
  RPC failure during a poll, which the source propagates with the
  question mark.
- HashMap / HashSet fields of AppState are modelled as association lists
  (insert overwrites) and membership lists; iteration order is the list
  order.
-/

abbrev Address : Type := Nat

abbrev TxHash : Type := Nat

/-- Shared application state. Fields names, seen_logs, current_price,
balances and holdings are declared in src/main.rs (struct AppState); the
fields backend_nonce, game_start_block, game_end_block and
current_block_height are read and written by src/backend.rs and src/ws.rs
but their declaring snapshot of main.rs is not in the repository.
Modelled from the spec: the GameState fields backendNonce,
gameStartBlock, gameEndBlock, currentBlockHeight of section 3. -/
structure AppState where
  names : List (Address × String)
  seen_logs : List (TxHash × Nat)
  current_price : Nat
  balances : List (Address × Nat)
  holdings : List (Address × Nat)
  backend_nonce : Nat
  game_start_block : Option Nat
  game_end_block : Option Nat
  current_block_height : Nat
  deriving DecidableEq

/-- Association-list lookup (HashMap::get). -/
def alLookup (k : Address) : List (Address × α) → Option α
  | [] => none
  | (k1, v1) :: rest => if k = k1 then some v1 else alLookup k rest

/-- Association-list overwrite insert (HashMap::insert). -/
def alInsert (k : Address) (v : α) : List (Address × α) → List (Address × α)
  | [] => [(k, v)]
  | (k1, v1) :: rest =>
    if k = k1 then (k, v) :: rest else (k1, v1) :: alInsert k v rest

/-- Outbound message enum of the src/main.rs snapshot, used by the
chain-event pipeline (src/chain_events.rs). Addresses are kept as Address
rather than their formatted string. -/
inductive ChainServerMessage where
  | PriceUpdate (old_price new_price block_number : Nat)
  | Bought (user : Address) (name : Option String)
      (amount price block_number balance holdings : Nat)
  | Sold (user : Address) (name : Option String)
      (amount price block_number balance holdings : Nat)
  | Position (user : Address) (name : Option String)
      (balance holdings current_price : Nat)
  deriving DecidableEq

/-- Decoded payload of a raw ledger log: the topic0 dispatch plus
decode_log of src/chain_events.rs collapsed into one tagged value.
unknown covers unrecognized discriminants and failed decodes. -/
inductive LogPayload where
  | priceUpdate (oldPrice newPrice blockNumber : Nat)
  | bought (user : Address) (amount price blockNumber newBalance newHoldings : Nat)
  | sold (user : Address) (amount price blockNumber newBalance newHoldings : Nat)
  | newUser (user : Address)
  | unknown
  deriving DecidableEq

/-- Raw log as delivered by the subscription: transaction hash and log
index may be absent (rpc::types::Log options). -/
structure RawLog where
  transaction_hash : Option TxHash
  log_index : Option Nat
  payload : LogPayload
  deriving DecidableEq

/-- Deduplication key: log.transaction_hash.unwrap_or_default() and
log.log_index.unwrap_or(0) from src/chain_events.rs lines 17-18. -/
def logKey (log : RawLog) : TxHash × Nat :=
  (log.transaction_hash.getD 0, log.log_index.getD 0)

/-- State projection of one decoded event, after the dedup check has
passed: the per-variant bodies of src/chain_events.rs lines 31-152. -/
def applyPayload (st : AppState) : LogPayload → AppState × List ChainServerMessage
  | .priceUpdate oldP newP blockN =>
    ({ st with current_price := newP }, [.PriceUpdate oldP newP blockN])
  | .bought user amount price blockN newBal newHold =>
    let st1 := { st with
      balances := alInsert user newBal st.balances
      holdings := alInsert user newHold st.holdings }
    let name := alLookup user st1.names
    (st1,
      [.Bought user name amount price blockN newBal newHold,
       .Position user name newBal newHold st1.current_price])
  | .sold user amount price blockN newBal newHold =>
    let st1 := { st with
      balances := alInsert user newBal st.balances
      holdings := alInsert user newHold st.holdings }
    let name := alLookup user st1.names
    (st1,
      [.Sold user name amount price blockN newBal newHold,
       .Position user name newBal newHold st1.current_price])
  | .newUser _ => (st, [])
  | .unknown => (st, [])

/-- One iteration of the event loop of src/chain_events.rs
(process_chain_events): compute the dedup key, drop the log if seen,
otherwise record it and project the payload, returning the new state and
the broadcast notifications. -/
def processLog (st : AppState) (log : RawLog) : AppState × List ChainServerMessage :=
  let key := logKey log
  if key ∈ st.seen_logs then (st, [])
  else
    let st1 := { st with seen_logs := key :: st.seen_logs }
    applyPayload st1 log.payload

/-- The event loop over a finite segment of the log stream. -/
def processLogs (st : AppState) : List RawLog → AppState × List ChainServerMessage
  | [] => (st, [])
  | log :: rest =>
    let r1 := processLog st log
    let r2 := processLogs r1.1 rest
    (r2.1, r1.2 ++ r2.2)

/-- Outbound message enum of src/ws.rs (ServerMessage), used by the
backend executor and the session handlers. Addresses and hashes are kept
in their numeric form rather than their formatted string. -/
inductive ServerMessage where
  | ConnectionInfo (contract_address : String) (register buy sell : Nat)
  | PriceUpdate (new_price block_number : Nat)
  | CurrentPrice (price : Nat)
  | NameSet (address : Address) (name : String)
  | Position (address : Address) (balance holdings block_number : Nat)
  | TxError (error : String)
  | NonceResponse (address : Address) (nonce : Nat)
  | Funded (address : Address) (amount : Nat)
  | FundError (address : Address) (error : String)
  | TxSubmitted (tx_hash : TxHash)
  | GameStarted (start_height end_height : Nat)
  | GameEnded
  | CurrentBlockHeight (height : Nat)
  deriving DecidableEq

/-- Gas cost table handed to sessions (struct GasCosts). -/
structure GasCosts where
  register : Nat
  buy : Nat
  sell : Nat
  deriving DecidableEq

/-- Kind of write transaction the backend builds. -/
inductive TxKind where
  | fundTransfer (dest : Address) (value : Nat)
  | tick
  | reset
  | start (duration : Nat)
  deriving DecidableEq

/-- A built transaction request: kind, reserved nonce and the fixed gas
parameters the source attaches (legacy gas_price for funding transfers,
max fee plus priority fee for contract calls). -/
structure Tx where
  kind : TxKind
  nonce : Nat
  gas_limit : Nat
  gas_price : Nat
  max_priority_fee : Option Nat
  deriving DecidableEq

/-- Ledger gateway interface as consumed by src/backend.rs: fallible RPC
reads and sends, and the fallible receipt poll per transaction hash (ok
is the eventual receipt status, error an RPC failure while polling). -/
structure LedgerEnv where
  get_balance : Address → Except String Nat
  getHoldings : Address → Except String Nat
  getBalanceContract : Address → Except String Nat
  send_transaction : Tx → Except String TxHash
  get_transaction_receipt : TxHash → Except String Bool
  get_transaction_count : Address → Except String Nat

/-- Funding target: 500_000_000_000_000_000 wei (0.5 MON). -/
def fundingAmount : Nat := 500000000000000000

/-- Restart-saga funding threshold: 450_000_000_000_000_000 wei (0.45 MON). -/
def minBalance : Nat := 450000000000000000

/-- Legacy gas price used for funding transfers (0x21d664903c wei). -/
def fundGasPrice : Nat := 0x21d664903c

/-- Gas limit for funding transfers (25_000). -/
def fundGasLimit : Nat := 25000

/-- Gas limit for tick calls (60_000). -/
def tickGasLimit : Nat := 60000

/-- Gas limit for reset and start calls (500_000). -/
def restartGasLimit : Nat := 500000

/-- Max fee per gas for contract calls (0x21d664903c wei). -/
def maxFeePerGas : Nat := 0x21d664903c

/-- Max priority fee per gas for contract calls (1_000_000_000 wei). -/
def maxPriorityFee : Nat := 1000000000

/-- Game duration in blocks passed to start() by the restart saga. -/
def gameDuration : Nat := 50

/-- Outcome of one backend operation that may have mutated the shared
state before an error return: final state, transactions actually sent,
messages sent on the session-private reply channel, messages sent on the
broadcast channel, and the Result value. -/
structure FundResult where
  state : AppState
  sent : List Tx
  client_msgs : List ServerMessage
  broadcast_msgs : List ServerMessage
  result : Except String Unit

/-- Embedding of handle_fund_event (src/backend.rs lines 26-133): read the
wallet balance; if positive, read holdings and contract balance and reply
Funded with the observed wallet balance (plus a Position broadcast when
both contract balance and holdings are positive), issuing no transaction;
otherwise reserve a nonce, send a 0.5 MON transfer, await its receipt
(a failing poll propagates as an error, the transfer already sent) and
reply Funded or FundError. -/
def handleFundEvent (env : LedgerEnv) (addr : Address) (st : AppState) : FundResult :=
  match env.get_balance addr with
  | .error e =>
    { state := st, sent := [], client_msgs := [], broadcast_msgs := [],
      result := .error e }
  | .ok balance =>
    if 0 < balance then
      match env.getHoldings addr with
      | .error e =>
        { state := st, sent := [], client_msgs := [], broadcast_msgs := [],
          result := .error e }
      | .ok holdings =>
        match env.getBalanceContract addr with
        | .error e =>
          { state := st, sent := [], client_msgs := [], broadcast_msgs := [],
            result := .error e }
        | .ok contractBalance =>
          { state := st, sent := [],
            client_msgs := [ServerMessage.Funded addr balance],
            broadcast_msgs :=
              if 0 < contractBalance ∧ 0 < holdings then
                [ServerMessage.Position addr contractBalance holdings 0]
              else [],
            result := .ok () }
    else
      let nonce := st.backend_nonce
      let st1 := { st with backend_nonce := nonce + 1 }
      let tx : Tx :=
        { kind := .fundTransfer addr fundingAmount, nonce := nonce,
          gas_limit := fundGasLimit, gas_price := fundGasPrice,
          max_priority_fee := none }
      match env.send_transaction tx with
      | .error e =>
        { state := st1, sent := [], client_msgs := [], broadcast_msgs := [],
          result := .error e }
      | .ok h =>
        match env.get_transaction_receipt h with
        | .error e =>
          { state := st1, sent := [tx], client_msgs := [],
            broadcast_msgs := [], result := .error e }
        | .ok status =>
          if status then
            { state := st1, sent := [tx],
              client_msgs := [ServerMessage.Funded addr fundingAmount],
              broadcast_msgs := [], result := .ok () }
          else
            { state := st1, sent := [tx],
              client_msgs :=
                [ServerMessage.FundError addr "Funding transaction failed"],
              broadcast_msgs := [], result := .ok () }

/-- Embedding of handle_tick_event (src/backend.rs lines 135-168): reserve
a nonce, build the tick call and send it; no receipt wait. The returned
state keeps the incremented nonce even when the send fails. -/
def handleTickEvent (env : LedgerEnv) (st : AppState) :
    AppState × List Tx × Except String Unit :=
  let nonce := st.backend_nonce
  let st1 := { st with backend_nonce := nonce + 1 }
  let tx : Tx :=
    { kind := .tick, nonce := nonce, gas_limit := tickGasLimit,
      gas_price := maxFeePerGas, max_priority_fee := some maxPriorityFee }
  match env.send_transaction tx with
  | .ok _ => (st1, [tx], .ok ())
  | .error e => (st1, [], .error e)

/-- Boolean test that the pattern list occurs at the head of the text list. -/
def chrStartsHere : List Char → List Char → Bool
  | [], _ => true
  | _ :: _, [] => false
  | a :: as, b :: bs => a == b && chrStartsHere as bs

/-- Boolean substring search over character lists. -/
def chrContains (needle : List Char) : List Char → Bool
  | [] => chrStartsHere needle []
  | b :: bs => chrStartsHere needle (b :: bs) || chrContains needle bs

/-- str::contains of Rust: does the haystack contain the needle. -/
def strContains (haystack needle : String) : Bool :=
  chrContains needle.toList haystack.toList

/-- Needle of the benign-race bucket of the tick failure classifier. -/
def alreadyTickedNeedle : String := "Already ticked this block"

/-- Needle of the stuck-transaction bucket of the tick failure classifier. -/
def higherPriorityNeedle : String := "higher priority"

/-- Error message the executor formats from a tick failure before
classifying it (src/backend.rs line 382). -/
def tickErrorMsg (e : String) : String := "Failed to process tick: " ++ e

/-- Embedding of the tick-failure resync block of backend_tx_executor
(src/backend.rs lines 385-428): benign race leaves the state alone; a
higher-priority conflict jumps the nonce by 20; anything else re-reads the
chain transaction count and adopts it only when it exceeds the local
nonce, keeping the local value otherwise (also when the read fails). -/
def handleTickFailure (env : LedgerEnv) (backend_address : Address)
    (error_msg : String) (st : AppState) : AppState :=
  if strContains error_msg alreadyTickedNeedle then st
  else if strContains error_msg higherPriorityNeedle then
    { st with backend_nonce := st.backend_nonce + 20 }
  else
    match env.get_transaction_count backend_address with
    | .ok chain_nonce =>
      if st.backend_nonce < chain_nonce then
        { st with backend_nonce := chain_nonce }
      else st
    | .error _ => st

/-- Tick branch of the executor loop: run handle_tick_event and, on
failure, classify the formatted error and resync. -/
def runTickEvent (env : LedgerEnv) (backend_address : Address) (st : AppState) :
    AppState × List Tx :=
  match handleTickEvent env st with
  | (st1, txs, .ok _) => (st1, txs)
  | (st1, txs, .error e) =>
    (handleTickFailure env backend_address (tickErrorMsg e) st1, txs)

/-- Funding transfer built by step 1 of the restart saga: value is the
shortfall to the 0.5 MON target, with the funding gas parameters. -/
def fundTx (addr : Address) (balance nonce : Nat) : Tx :=
  { kind := .fundTransfer addr (fundingAmount - balance), nonce := nonce,
    gas_limit := fundGasLimit, gas_price := fundGasPrice,
    max_priority_fee := none }

/-- Accumulator of the restart saga: current shared state, transactions
sent so far and broadcast notifications emitted so far. -/
structure SagaAcc where
  state : AppState
  sent : List Tx
  broadcast_msgs : List ServerMessage

/-- Outcome of the restart saga (handle_restart_game). -/
structure RestartResult where
  state : AppState
  sent : List Tx
  broadcast_msgs : List ServerMessage
  result : Except String Unit

/-- Step 1 of the restart saga (src/backend.rs lines 196-249): for each
known player address, read its balance (a read failure aborts the saga via
the question mark); if below the 0.45 MON threshold, reserve a nonce and
send a transfer of the shortfall (a send failure aborts the saga, with the
nonce already consumed); poll the receipt (a poll failure aborts the saga,
the transfer already sent) and broadcast Funded with the full 0.5 MON
target when its status is success; then continue with the next address
whatever that status was. -/
def fundPlayersStep (env : LedgerEnv) : List Address → SagaAcc → SagaAcc × Except String Unit
  | [], acc => (acc, .ok ())
  | addr :: rest, acc =>
    match env.get_balance addr with
    | .error e => (acc, .error e)
    | .ok balance =>
      if balance < minBalance then
        let nonce := acc.state.backend_nonce
        let st1 := { acc.state with backend_nonce := nonce + 1 }
        let tx : Tx := fundTx addr balance nonce
        match env.send_transaction tx with
        | .error e =>
          ({ acc with state := st1 }, .error e)
        | .ok h =>
          match env.get_transaction_receipt h with
          | .error e =>
            ({ state := st1, sent := acc.sent ++ [tx],
               broadcast_msgs := acc.broadcast_msgs }, .error e)
          | .ok status =>
            let acc1 : SagaAcc :=
              { state := st1, sent := acc.sent ++ [tx],
                broadcast_msgs :=
                  if status then
                    acc.broadcast_msgs ++ [ServerMessage.Funded addr fundingAmount]
                  else acc.broadcast_msgs }
            fundPlayersStep env rest acc1
      else fundPlayersStep env rest acc

/-- Steps 2 to 4 of handle_restart_game (src/backend.rs lines 251-335):
reserve a nonce and send the reset call; poll its receipt (a poll failure
aborts via the question mark) and abort with an error on revert; then
reserve another nonce, send the start call with the 50-block duration,
poll its receipt and report an error on revert. -/
def resetStartSteps (env : LedgerEnv) (acc : SagaAcc) : RestartResult :=
  let nonce := acc.state.backend_nonce
  let st2 := { acc.state with backend_nonce := nonce + 1 }
  let resetTx : Tx :=
    { kind := .reset, nonce := nonce, gas_limit := restartGasLimit,
      gas_price := maxFeePerGas, max_priority_fee := some maxPriorityFee }
  match env.send_transaction resetTx with
  | .error e =>
    { state := st2, sent := acc.sent,
      broadcast_msgs := acc.broadcast_msgs, result := .error e }
  | .ok resetHash =>
    let sent2 := acc.sent ++ [resetTx]
    match env.get_transaction_receipt resetHash with
    | .error e =>
      { state := st2, sent := sent2,
        broadcast_msgs := acc.broadcast_msgs, result := .error e }
    | .ok resetStatus =>
      if resetStatus then
        let nonce2 := st2.backend_nonce
        let st3 := { st2 with backend_nonce := nonce2 + 1 }
        let startTx : Tx :=
          { kind := .start gameDuration, nonce := nonce2,
            gas_limit := restartGasLimit, gas_price := maxFeePerGas,
            max_priority_fee := some maxPriorityFee }
        match env.send_transaction startTx with
        | .error e =>
          { state := st3, sent := sent2,
            broadcast_msgs := acc.broadcast_msgs, result := .error e }
        | .ok startHash =>
          let sent3 := sent2 ++ [startTx]
          match env.get_transaction_receipt startHash with
          | .error e =>
            { state := st3, sent := sent3,
              broadcast_msgs := acc.broadcast_msgs, result := .error e }
          | .ok startStatus =>
            if startStatus then
              { state := st3, sent := sent3,
                broadcast_msgs := acc.broadcast_msgs, result := .ok () }
            else
              { state := st3, sent := sent3,
                broadcast_msgs := acc.broadcast_msgs,
                result := .error "Start transaction failed" }
      else
        { state := st2, sent := sent2,
          broadcast_msgs := acc.broadcast_msgs,
          result := .error "Reset transaction failed" }

/-- Embedding of handle_restart_game (src/backend.rs lines 170-336): the
linear saga fund-all-players, reset, start, each gated on confirmation.
The player list is the key set of the names map; a step-1 error aborts
the saga; otherwise the reset and start steps run. -/
def handleRestartGame (env : LedgerEnv) (st : AppState) : RestartResult :=
  let addresses := st.names.map Prod.fst
  match fundPlayersStep env addresses { state := st, sent := [], broadcast_msgs := [] } with
  | (acc, .error e) =>
    { state := acc.state, sent := acc.sent,
      broadcast_msgs := acc.broadcast_msgs, result := .error e }
  | (acc, .ok _) => resetStartSteps env acc

/-- Initial per-session message sequence of handle_connection
(src/ws.rs lines 108-186): connection info, current price, current block
height, game window status when a window is set (GameEnded when the
current height has passed the end block, GameStarted otherwise), the full
name registry, then the full position snapshot with holdings defaulting
to 0 and block_number 0. -/
def initialMessages (gas : GasCosts) (contract_address : String) (st : AppState) :
    List ServerMessage :=
  [ServerMessage.ConnectionInfo contract_address gas.register gas.buy gas.sell,
   ServerMessage.CurrentPrice st.current_price,
   ServerMessage.CurrentBlockHeight st.current_block_height]
  ++ (match st.game_start_block, st.game_end_block with
      | some startBlock, some endBlock =>
        if endBlock < st.current_block_height then [ServerMessage.GameEnded]
        else [ServerMessage.GameStarted startBlock endBlock]
      | _, _ => [])
  ++ st.names.map (fun p => ServerMessage.NameSet p.1 p.2)
  ++ st.balances.map (fun p =>
      ServerMessage.Position p.1 p.2 ((alLookup p.1 st.holdings).getD 0) 0)

/-- Message sequence a session observes on its socket: the initial
snapshot block is written before the relay task is spawned, so every
broadcast-relayed message comes after it. -/
def sessionTranscript (gas : GasCosts) (contract_address : String) (st : AppState)
    (broadcasts : List ServerMessage) : List ServerMessage :=
  initialMessages gas contract_address st ++ broadcasts

/-- Write-intent command queued to the backend executor (BackendTxEvent).
The Fund variant carries the session-private reply channel in the source;
the channel itself is ambient here. -/
inductive BackendTxEvent where
  | Fund (addr : Address)
  | Tick
  | GameOver
  deriving DecidableEq

/-- Environment of the inbound session handlers: address parsing and the
transaction count read they perform. -/
structure WsEnv where
  parse_address : String → Option Address
  get_transaction_count : Address → Except String Nat

/-- Embedding of the GetNonce arm of handle_connection (src/ws.rs lines
272-301, identical in src/ws_axum.rs lines 199-228): parse the address
(a parse failure only logs), read its transaction count, then send
NonceResponse on the session-private channel and enqueue a Fund command
for the same address; a read failure sends TxError instead. Returns the
session-private messages and the commands enqueued to the executor. -/
def handleGetNonce (env : WsEnv) (address : String) :
    List ServerMessage × List BackendTxEvent :=
  match env.parse_address address with
  | none => ([], [])
  | some addr =>
    match env.get_transaction_count addr with
    | .ok nonce =>
      ([ServerMessage.NonceResponse addr nonce], [BackendTxEvent.Fund addr])
    | .error e =>
      ([ServerMessage.TxError ("Failed to get nonce: " ++ e)], [])

/-- State invariant pair of spec section 3 checked by the claims: the
backend nonce never decreases and the seen-logs set only grows. -/
def statePreserved (st st1 : AppState) : Prop :=
  st.backend_nonce ≤ st1.backend_nonce ∧ st.seen_logs ⊆ st1.seen_logs

/-- Fresh state as built by AppState::new of src/main.rs (current_price
starts at 50) with the modelled extension fields at their pre-game
defaults. -/
def initialAppState : AppState where
  names := []
  seen_logs := []
  current_price := 50
  balances := []
  holdings := []
  backend_nonce := 0
  game_start_block := none
  game_end_block := none
  current_block_height := 0

/-- PriceUpdate raw log of the end-to-end scenario: old 50, new 55,
block 100. -/
def puLog : RawLog where
  transaction_hash := some 1
  log_index := some 0
  payload := .priceUpdate 50 55 100

/-- Raw log missing both transaction hash and log index. -/
def noneLog1 : RawLog where
  transaction_hash := none
  log_index := none
  payload := .priceUpdate 50 55 100

/-- A second raw log missing both key fields with a different payload. -/
def noneLog2 : RawLog where
  transaction_hash := none
  log_index := none
  payload := .bought 2 1 60 101 940 6

/-- Test state with backend nonce 5. -/
def stNonce5 : AppState := { initialAppState with backend_nonce := 5 }

/-- Test state with one registered player. -/
def stOnePlayer : AppState :=
  { initialAppState with names := [(1, "alice")], backend_nonce := 5 }

/-- Test state with two registered players. -/
def stTwoPlayers : AppState :=
  { initialAppState with names := [(1, "alice"), (2, "bob")] }

/-- Test state of the connect scenario: game window 1000-2000, current
height 1500, one name and one position. -/
def stConnect : AppState :=
  { initialAppState with
    names := [(1, "alice")], balances := [(1, 10)], holdings := [(1, 4)],
    current_price := 55, game_start_block := some 1000,
    game_end_block := some 2000, current_block_height := 1500 }

/-- Gas cost table of src/main.rs (register 115k, buy and sell 60k). -/
def gasMain : GasCosts where
  register := 115000
  buy := 60000
  sell := 60000

/-- Ledger stub: zero balances, sends succeed with the nonce as hash,
receipts succeed, chain transaction count 9. -/
def envCount9 : LedgerEnv where
  get_balance := fun _ => .ok 0
  getHoldings := fun _ => .ok 0
  getBalanceContract := fun _ => .ok 0
  send_transaction := fun tx => .ok tx.nonce
  get_transaction_receipt := fun _ => .ok true
  get_transaction_count := fun _ => .ok 9

/-- Ledger stub for the funded-player case: wallet balance at the 0.45 MON
threshold, holdings 3, contract balance 7. -/
def envFunded : LedgerEnv :=
  { envCount9 with
    get_balance := fun _ => .ok minBalance
    getHoldings := fun _ => .ok 3
    getBalanceContract := fun _ => .ok 7 }

/-- Ledger stub where every receipt reports failure and every player is
already funded. -/
def envResetReverts : LedgerEnv :=
  { envCount9 with
    get_balance := fun _ => .ok fundingAmount
    get_transaction_receipt := fun _ => .ok false }

/-- Ledger stub where reads and sends succeed but every funding receipt
reports failure. -/
def envFundReverts : LedgerEnv :=
  { envCount9 with get_transaction_receipt := fun _ => .ok false }

/-- Ledger stub where the balance query fails for address 1 only. -/
def envBalanceFails : LedgerEnv :=
  { envCount9 with
    get_balance := fun a =>
      if a = 1 then .error "balance query failed" else .ok 0 }

/-- Tick failure reason matching neither classifier needle. -/
def msgOther : String := "nonce too low"

/-- Tick failure reason matching the higher-priority needle. -/
def msgHigherPriority : String := "higher priority transaction pending"

/-- Session-handler stub: address 1 parses from its hex form, transaction
count 7. -/
def wsEnvOne : WsEnv where
  parse_address := fun s =>
    if s = "0x0000000000000000000000000000000000000001" then some 1 else none
  get_transaction_count := fun _ => .ok 7

/-! Helper lemmas about the event pipeline. -/

theorem applyPayload_seen_logs (st : AppState) (p : LogPayload) :
    (applyPayload st p).1.seen_logs = st.seen_logs := by
  cases p <;> rfl

theorem applyPayload_nonce (st : AppState) (p : LogPayload) :
    (applyPayload st p).1.backend_nonce = st.backend_nonce := by
  cases p <;> rfl

theorem processLog_key_mem (st : AppState) (log : RawLog) :
    logKey log ∈ (processLog st log).1.seen_logs := by
  simp only [processLog]
  split
  · simpa using by assumption
  · rw [applyPayload_seen_logs]
    exact List.mem_cons_self _ _

theorem processLog_of_seen (st : AppState) (log : RawLog)
    (h : logKey log ∈ st.seen_logs) : processLog st log = (st, []) := by
  simp only [processLog]
  rw [if_pos h]

theorem processLog_seen_subset (st : AppState) (log : RawLog) :
    st.seen_logs ⊆ (processLog st log).1.seen_logs := by
  simp only [processLog]
  split
  · exact fun x hx => hx
  · rw [applyPayload_seen_logs]
    exact fun x hx => List.mem_cons_of_mem _ hx

theorem processLog_nonce (st : AppState) (log : RawLog) :
    (processLog st log).1.backend_nonce = st.backend_nonce := by
  simp only [processLog]
  split
  · rfl
  · rw [applyPayload_nonce]

theorem processLogs_seen_subset (st : AppState) (logs : List RawLog) :
    st.seen_logs ⊆ (processLogs st logs).1.seen_logs := by
  induction logs generalizing st with
  | nil => exact fun x hx => hx
  | cons log rest ih =>
    simp only [processLogs]
    exact fun x hx => ih (processLog st log).1 (processLog_seen_subset st log hx)

theorem processLogs_nonce (st : AppState) (logs : List RawLog) :
    (processLogs st logs).1.backend_nonce = st.backend_nonce := by
  induction logs generalizing st with
  | nil => rfl
  | cons log rest ih =>
    simp only [processLogs]
    rw [ih, processLog_nonce]

/-- C1: feeding the same raw log (same transactionId and logIndex) twice
through the event pipeline yields exactly one projection (the key is
recorded once and the duplicate pass changes nothing) and one set of
notifications; in the concrete scenario, delivering
PriceUpdate old 50 new 55 block 100 and then the identical log again
leaves current_price at 55 with exactly one PriceUpdate notification
downstream. -/
theorem c1_dedup_idempotent (st : AppState) (log : RawLog)
    (hnew : logKey log ∉ st.seen_logs) :
    processLogs st [log, log] = processLog st log
    ∧ (processLog st log).1.seen_logs = logKey log :: st.seen_logs
    ∧ (processLogs initialAppState [puLog, puLog]).1.current_price = 55
    ∧ (processLogs initialAppState [puLog, puLog]).2
        = [ChainServerMessage.PriceUpdate 50 55 100] := by
  refine ⟨?_, ?_, by rfl, by rfl⟩
  · have hmem := processLog_key_mem st log
    simp only [processLogs]
    rw [processLog_of_seen _ _ hmem]
    simp
  · simp only [processLog]
    rw [if_neg hnew, applyPayload_seen_logs]

theorem c1_dedup_idempotent_witness :
    logKey puLog ∉ initialAppState.seen_logs
    ∧ (processLogs initialAppState [puLog, puLog] = processLog initialAppState puLog
       ∧ (processLog initialAppState puLog).1.seen_logs
           = logKey puLog :: initialAppState.seen_logs
       ∧ (processLogs initialAppState [puLog, puLog]).1.current_price = 55
       ∧ (processLogs initialAppState [puLog, puLog]).2
           = [ChainServerMessage.PriceUpdate 50 55 100]) :=
  ⟨by decide, c1_dedup_idempotent initialAppState puLog (by decide)⟩

/-- C10: the deduplication key of a raw log missing transactionId or
logIndex is computed with defaults (zero hash, index 0); after one log
missing both fields is processed, every subsequent log missing both
fields is discarded as a duplicate even when its payload differs, and is
never projected: the state is unchanged and no notification is emitted. -/
theorem c10_default_key_collision (st : AppState) (l1 l2 : RawLog)
    (mid : List RawLog)
    (h1t : l1.transaction_hash = none) (h1i : l1.log_index = none)
    (h2t : l2.transaction_hash = none) (h2i : l2.log_index = none) :
    processLog (processLogs (processLog st l1).1 mid).1 l2
      = ((processLogs (processLog st l1).1 mid).1, []) := by
  apply processLog_of_seen
  have hk : logKey l2 = logKey l1 := by
    simp [logKey, h1t, h1i, h2t, h2i]
  rw [hk]
  exact processLogs_seen_subset _ mid (processLog_key_mem st l1)

theorem c10_default_key_collision_witness :
    noneLog1.transaction_hash = none ∧ noneLog1.log_index = none
    ∧ noneLog2.transaction_hash = none ∧ noneLog2.log_index = none
    ∧ processLog (processLogs (processLog initialAppState noneLog1).1 [puLog]).1 noneLog2
        = ((processLogs (processLog initialAppState noneLog1).1 [puLog]).1, []) :=
  ⟨rfl, rfl, rfl, rfl,
   c10_default_key_collision initialAppState noneLog1 noneLog2 [puLog]
     rfl rfl rfl rfl⟩

/-- C2: when a Tick failure falls in the catch-all bucket (reason text
matching neither classifier needle) and the chain transaction count query
returns c while the local nonce is st.backend_nonce, the post-resync
nonce equals max of the two: adopted when greater, unchanged when equal,
kept when smaller, and it never decreases. -/
theorem c2_resync_max (env : LedgerEnv) (baddr : Address) (msg : String)
    (st : AppState) (c : Nat)
    (h1 : strContains msg alreadyTickedNeedle = false)
    (h2 : strContains msg higherPriorityNeedle = false)
    (hq : env.get_transaction_count baddr = Except.ok c) :
    (handleTickFailure env baddr msg st).backend_nonce = max st.backend_nonce c
    ∧ st.backend_nonce ≤ (handleTickFailure env baddr msg st).backend_nonce := by
  unfold handleTickFailure
  rw [h1, h2, hq]
  simp only [Bool.false_eq_true, if_false]
  constructor <;> split <;> simp <;> omega

theorem c2_resync_max_witness :
    strContains msgOther alreadyTickedNeedle = false
    ∧ strContains msgOther higherPriorityNeedle = false
    ∧ envCount9.get_transaction_count 0 = Except.ok 9
    ∧ (handleTickFailure envCount9 0 msgOther stNonce5).backend_nonce
        = max stNonce5.backend_nonce 9
    ∧ stNonce5.backend_nonce
        ≤ (handleTickFailure envCount9 0 msgOther stNonce5).backend_nonce :=
  ⟨by decide, by decide, rfl,
   (c2_resync_max envCount9 0 msgOther stNonce5 9 (by decide) (by decide) rfl).1,
   (c2_resync_max envCount9 0 msgOther stNonce5 9 (by decide) (by decide) rfl).2⟩

/-- C3: when a Tick failure is classified into the
superseded-by-higher-priority bucket, the resync sets the backend nonce
to its pre-action value plus 20 and performs no other state change. -/
theorem c3_higher_priority_jump (env : LedgerEnv) (baddr : Address)
    (msg : String) (st : AppState)
    (h1 : strContains msg alreadyTickedNeedle = false)
    (h2 : strContains msg higherPriorityNeedle = true) :
    handleTickFailure env baddr msg st
      = { st with backend_nonce := st.backend_nonce + 20 } := by
  unfold handleTickFailure
  rw [h1, h2]
  simp

theorem c3_higher_priority_jump_witness :
    strContains msgHigherPriority alreadyTickedNeedle = false
    ∧ strContains msgHigherPriority higherPriorityNeedle = true
    ∧ handleTickFailure envCount9 0 msgHigherPriority stNonce5
        = { stNonce5 with backend_nonce := 25 } :=
  ⟨by decide, by decide,
   (c3_higher_priority_jump envCount9 0 msgHigherPriority stNonce5
     (by decide) (by decide)).trans (by decide)⟩

/-- C5: for a Fund command targeting a player whose on-ledger balance is
at or above the 0.45 MON funded threshold (and whose contract reads
succeed), the handler issues zero transactions, leaves the state
untouched (in particular reserves no nonce) and emits a Funded
notification on the session-private reply channel carrying the observed
balance. -/
theorem c5_funded_no_tx (env : LedgerEnv) (addr : Address) (st : AppState)
    (b hv cb : Nat)
    (hb : env.get_balance addr = Except.ok b)
    (hth : minBalance ≤ b)
    (hh : env.getHoldings addr = Except.ok hv)
    (hc : env.getBalanceContract addr = Except.ok cb) :
    (handleFundEvent env addr st).sent = []
    ∧ (handleFundEvent env addr st).state = st
    ∧ (handleFundEvent env addr st).client_msgs = [ServerMessage.Funded addr b] := by
  have hpos : 0 < b := lt_of_lt_of_le (by norm_num [minBalance]) hth
  simp [handleFundEvent, hb, hh, hc, hpos]

theorem c5_funded_no_tx_witness :
    envFunded.get_balance 1 = Except.ok minBalance
    ∧ minBalance ≤ minBalance
    ∧ envFunded.getHoldings 1 = Except.ok 3
    ∧ envFunded.getBalanceContract 1 = Except.ok 7
    ∧ (handleFundEvent envFunded 1 stNonce5).sent = []
    ∧ (handleFundEvent envFunded 1 stNonce5).state = stNonce5
    ∧ (handleFundEvent envFunded 1 stNonce5).client_msgs
        = [ServerMessage.Funded 1 minBalance] :=
  ⟨rfl, le_refl _, rfl, rfl,
   (c5_funded_no_tx envFunded 1 stNonce5 minBalance 3 7 rfl (le_refl _) rfl rfl).1,
   (c5_funded_no_tx envFunded 1 stNonce5 minBalance 3 7 rfl (le_refl _) rfl rfl).2.1,
   (c5_funded_no_tx envFunded 1 stNonce5 minBalance 3 7 rfl (le_refl _) rfl rfl).2.2⟩

/-! Helper lemmas about the restart saga. -/

theorem statePreserved_refl (st : AppState) : statePreserved st st :=
  ⟨le_refl _, fun _ hx => hx⟩

theorem statePreserved_trans {a b c : AppState}
    (h1 : statePreserved a b) (h2 : statePreserved b c) : statePreserved a c :=
  ⟨le_trans h1.1 h2.1, fun _ hx => h2.2 (h1.2 hx)⟩

theorem fundPlayersStep_sent_kinds (env : LedgerEnv) (addrs : List Address)
    (acc : SagaAcc) (tx : Tx)
    (h : tx ∈ (fundPlayersStep env addrs acc).1.sent) :
    tx ∈ acc.sent ∨ ∃ a v, tx.kind = TxKind.fundTransfer a v := by
  induction addrs generalizing acc with
  | nil => exact Or.inl h
  | cons addr rest ih =>
    simp only [fundPlayersStep] at h
    split at h
    · exact Or.inl h
    · split at h
      · split at h
        · exact Or.inl h
        · split at h
          · rcases List.mem_append.mp h with h3 | h3
            · exact Or.inl h3
            · rw [List.mem_singleton.mp h3]
              exact Or.inr ⟨addr, _, rfl⟩
          · rcases ih _ h with h1 | h2
            · rcases List.mem_append.mp h1 with h3 | h3
              · exact Or.inl h3
              · rw [List.mem_singleton.mp h3]
                exact Or.inr ⟨addr, _, rfl⟩
            · exact Or.inr h2
      · exact ih _ h

theorem fundPlayersStep_sent_mono (env : LedgerEnv) (addrs : List Address)
    (acc : SagaAcc) : acc.sent ⊆ (fundPlayersStep env addrs acc).1.sent := by
  induction addrs generalizing acc with
  | nil => exact fun _ hx => hx
  | cons addr rest ih =>
    simp only [fundPlayersStep]
    split
    · exact fun _ hx => hx
    · split
      · split
        · exact fun _ hx => hx
        · split
          · exact fun x hx => List.mem_append_left _ hx
          · exact fun x hx => ih _ (List.mem_append_left _ hx)
      · exact ih _

theorem fundPlayersStep_preserved (env : LedgerEnv) (addrs : List Address)
    (acc : SagaAcc) :
    statePreserved acc.state (fundPlayersStep env addrs acc).1.state := by
  induction addrs generalizing acc with
  | nil => exact statePreserved_refl _
  | cons addr rest ih =>
    simp only [fundPlayersStep]
    split
    · exact statePreserved_refl _
    · split
      · split
        · exact ⟨Nat.le_succ _, fun _ hx => hx⟩
        · split
          · exact ⟨Nat.le_succ _, fun _ hx => hx⟩
          · refine statePreserved_trans ?_ (ih _)
            exact ⟨Nat.le_succ _, fun _ hx => hx⟩
      · exact ih _

/-- C4: in every execution of the restart saga in which the reset
transaction's receipt reports failure, the start transaction is never
submitted and the saga returns an error. -/
theorem c4_saga_abort_on_reset (env : LedgerEnv) (st : AppState)
    (hrev : ∀ tx h, tx.kind = TxKind.reset →
      env.send_transaction tx = Except.ok h →
      env.get_transaction_receipt h = Except.ok false) :
    (∀ tx, tx ∈ (handleRestartGame env st).sent → ∀ d, tx.kind ≠ TxKind.start d)
    ∧ ∃ e, (handleRestartGame env st).result = Except.error e := by
  have hstep1 : ∀ tx, tx ∈ (fundPlayersStep env (st.names.map Prod.fst)
      { state := st, sent := [], broadcast_msgs := [] }).1.sent →
      ∀ d, tx.kind ≠ TxKind.start d := by
    intro tx htx d
    rcases fundPlayersStep_sent_kinds env _ _ tx htx with h1 | ⟨a, v, hk⟩
    · simp at h1
    · rw [hk]
      intro hc
      cases hc
  rcases hfp : fundPlayersStep env (st.names.map Prod.fst)
      { state := st, sent := [], broadcast_msgs := [] } with ⟨acc, res⟩
  have haccsent : ∀ tx, tx ∈ acc.sent → ∀ d, tx.kind ≠ TxKind.start d := by
    intro tx htx d
    apply hstep1 tx _ d
    rw [hfp]
    exact htx
  cases res with
  | error e =>
    simp only [handleRestartGame, hfp]
    exact ⟨fun tx htx d => haccsent tx htx d, e, rfl⟩
  | ok u =>
    simp only [handleRestartGame, hfp, resetStartSteps]
    rcases hsend : env.send_transaction
        { kind := TxKind.reset, nonce := acc.state.backend_nonce,
          gas_limit := restartGasLimit, gas_price := maxFeePerGas,
          max_priority_fee := some maxPriorityFee } with e | resetHash
    · simp only [hsend]
      exact ⟨fun tx htx d => haccsent tx htx d, e, rfl⟩
    · have hfalse := hrev _ resetHash rfl hsend
      simp only [hsend, hfalse, Bool.false_eq_true, if_false]
      refine ⟨?_, _, rfl⟩
      intro tx htx d
      rcases List.mem_append.mp htx with h1 | h1
      · exact haccsent tx h1 d
      · rw [List.mem_singleton.mp h1]
        intro hc
        cases hc

theorem c4_saga_abort_on_reset_witness :
    envResetReverts.get_transaction_receipt 0 = Except.ok false
    ∧ (∀ tx, tx ∈ (handleRestartGame envResetReverts stOnePlayer).sent →
        ∀ d, tx.kind ≠ TxKind.start d)
    ∧ ∃ e, (handleRestartGame envResetReverts stOnePlayer).result = Except.error e :=
  ⟨rfl,
   (c4_saga_abort_on_reset envResetReverts stOnePlayer (fun _ _ _ _ => rfl)).1,
   (c4_saga_abort_on_reset envResetReverts stOnePlayer (fun _ _ _ _ => rfl)).2⟩

theorem resetStartSteps_sent_mono (env : LedgerEnv) (acc : SagaAcc) :
    acc.sent ⊆ (resetStartSteps env acc).sent := by
  intro x hx
  simp only [resetStartSteps]
  rcases hsend : env.send_transaction
      { kind := TxKind.reset, nonce := acc.state.backend_nonce,
        gas_limit := restartGasLimit, gas_price := maxFeePerGas,
        max_priority_fee := some maxPriorityFee } with e | resetHash
  · simp only [hsend]
    exact hx
  · simp only [hsend]
    rcases hrc : env.get_transaction_receipt resetHash with e | resetStatus
    · simp only [hrc]
      exact List.mem_append_left _ hx
    · simp only [hrc]
      by_cases hst : resetStatus = true
      · rw [if_pos hst]
        rcases hsend2 : env.send_transaction
            { kind := TxKind.start gameDuration,
              nonce := acc.state.backend_nonce + 1,
              gas_limit := restartGasLimit, gas_price := maxFeePerGas,
              max_priority_fee := some maxPriorityFee } with e | startHash
        · simp only [hsend2]
          exact List.mem_append_left _ hx
        · simp only [hsend2]
          rcases hrc2 : env.get_transaction_receipt startHash with e | startStatus
          · simp only [hrc2]
            exact List.mem_append_left _ (List.mem_append_left _ hx)
          · simp only [hrc2]
            by_cases hst2 : startStatus = true
            · rw [if_pos hst2]
              exact List.mem_append_left _ (List.mem_append_left _ hx)
            · rw [if_neg hst2]
              exact List.mem_append_left _ (List.mem_append_left _ hx)
      · rw [if_neg hst]
        exact List.mem_append_left _ hx

theorem restart_sent_mono (env : LedgerEnv) (st : AppState) :
    (fundPlayersStep env (st.names.map Prod.fst)
      { state := st, sent := [], broadcast_msgs := [] }).1.sent
    ⊆ (handleRestartGame env st).sent := by
  intro x hx
  rcases hfp : fundPlayersStep env (st.names.map Prod.fst)
      { state := st, sent := [], broadcast_msgs := [] } with ⟨acc, res⟩
  rw [hfp] at hx
  cases res with
  | error e =>
    simp only [handleRestartGame, hfp]
    exact hx
  | ok u =>
    simp only [handleRestartGame, hfp]
    exact resetStartSteps_sent_mono env acc hx

theorem fundPlayersStep_funds_all (env : LedgerEnv)
    (hball : ∀ a, ∃ n, env.get_balance a = Except.ok n)
    (hsend : ∀ tx, ∃ h, env.send_transaction tx = Except.ok h)
    (hrcpt : ∀ h, ∃ b, env.get_transaction_receipt h = Except.ok b)
    (addrs : List Address) :
    ∀ (acc : SagaAcc) (a : Address) (b : Nat),
      a ∈ addrs → env.get_balance a = Except.ok b → b < minBalance →
      ∃ tx, tx ∈ (fundPlayersStep env addrs acc).1.sent
        ∧ tx.kind = TxKind.fundTransfer a (fundingAmount - b) := by
  induction addrs with
  | nil =>
    intro acc a b ha _ _
    exact absurd ha (List.not_mem_nil a)
  | cons addr rest ih =>
    intro acc a b ha hab hlow
    rcases hball addr with ⟨n, hn⟩
    simp only [fundPlayersStep, hn]
    by_cases hcond : n < minBalance
    · rw [if_pos hcond]
      rcases hsend (fundTx addr n acc.state.backend_nonce) with ⟨h, hs⟩
      simp only [hs]
      rcases hrcpt h with ⟨rb, hr⟩
      simp only [hr]
      rcases List.mem_cons.mp ha with heq | hmem
      · subst heq
        have hbn : b = n := by
          rw [hab] at hn
          exact Except.ok.inj hn
        subst hbn
        refine ⟨fundTx a b acc.state.backend_nonce,
          fundPlayersStep_sent_mono env rest _ ?_, rfl⟩
        exact List.mem_append_right _ (List.mem_singleton_self _)
      · exact ih _ a b hmem hab hlow
    · rw [if_neg hcond]
      rcases List.mem_cons.mp ha with heq | hmem
      · subst heq
        have hbn : b = n := by
          rw [hab] at hn
          exact Except.ok.inj hn
        omega
      · exact ih _ a b hmem hab hlow

/-- C6 counterexample: with two registered players where the balance
query for the first fails, the saga aborts with that error and submits no
transaction at all, although the second player's balance (0) is below
the threshold: one address's balance-query failure does abort the
per-player funding pass, contradicting the claim. -/
theorem c6_counterexample_balance_failure :
    stTwoPlayers.names.map Prod.fst = [1, 2]
    ∧ envBalanceFails.get_balance 2 = Except.ok 0
    ∧ (0 : Nat) < minBalance
    ∧ (handleRestartGame envBalanceFails stTwoPlayers).sent = []
    ∧ (handleRestartGame envBalanceFails stTwoPlayers).result
        = Except.error "balance query failed" :=
  ⟨rfl, rfl, by decide, rfl, rfl⟩

/-- C6 (amended): in step 1 of the restart saga the loop continues to the
next address past a funding transaction whose receipt reports failure
(revert), but an error on an address's balance query, send, or receipt
poll aborts the whole saga via the question mark; when every balance
query, send and receipt poll succeeds, every known player address whose
balance is below the threshold receives a funding transaction for its
shortfall, whatever the receipt statuses of the other addresses. -/
theorem c6_funding_pass_best_effort (env : LedgerEnv) (st : AppState)
    (hball : ∀ a, ∃ n, env.get_balance a = Except.ok n)
    (hsend : ∀ tx, ∃ h, env.send_transaction tx = Except.ok h)
    (hrcpt : ∀ h, ∃ b, env.get_transaction_receipt h = Except.ok b)
    (a : Address) (b : Nat) (ha : a ∈ st.names.map Prod.fst)
    (hab : env.get_balance a = Except.ok b) (hlow : b < minBalance) :
    ∃ tx, tx ∈ (handleRestartGame env st).sent
      ∧ tx.kind = TxKind.fundTransfer a (fundingAmount - b) := by
  rcases fundPlayersStep_funds_all env hball hsend hrcpt (st.names.map Prod.fst)
      { state := st, sent := [], broadcast_msgs := [] } a b ha hab hlow
    with ⟨tx, htx, hk⟩
  exact ⟨tx, restart_sent_mono env st htx, hk⟩

theorem c6_funding_pass_best_effort_witness :
    (2 : Address) ∈ stTwoPlayers.names.map Prod.fst
    ∧ envFundReverts.get_balance 2 = Except.ok 0
    ∧ (0 : Nat) < minBalance
    ∧ envFundReverts.get_transaction_receipt 0 = Except.ok false
    ∧ ∃ tx, tx ∈ (handleRestartGame envFundReverts stTwoPlayers).sent
        ∧ tx.kind = TxKind.fundTransfer 2 (fundingAmount - 0) :=
  ⟨by decide, rfl, by decide, rfl,
   c6_funding_pass_best_effort envFundReverts stTwoPlayers
     (fun _ => ⟨0, rfl⟩) (fun tx => ⟨tx.nonce, rfl⟩) (fun _ => ⟨false, rfl⟩)
     2 0 (by decide) rfl (by decide)⟩

/-! Preservation lemmas for the state invariants. -/

theorem processLog_preserved (st : AppState) (log : RawLog) :
    statePreserved st (processLog st log).1 :=
  ⟨Nat.le_of_eq (processLog_nonce st log).symm, processLog_seen_subset st log⟩

theorem processLogs_preserved (st : AppState) (logs : List RawLog) :
    statePreserved st (processLogs st logs).1 :=
  ⟨Nat.le_of_eq (processLogs_nonce st logs).symm, processLogs_seen_subset st logs⟩

theorem handleFundEvent_preserved (env : LedgerEnv) (addr : Address) (st : AppState) :
    statePreserved st (handleFundEvent env addr st).state := by
  rcases hb : env.get_balance addr with e | balance
  · simp only [handleFundEvent, hb]
    exact statePreserved_refl st
  · simp only [handleFundEvent, hb]
    by_cases hpos : 0 < balance
    · rw [if_pos hpos]
      rcases hh : env.getHoldings addr with e | hv
      · simp only [hh]
        exact statePreserved_refl st
      · simp only [hh]
        rcases hc : env.getBalanceContract addr with e | cb
        · simp only [hc]
          exact statePreserved_refl st
        · simp only [hc]
          exact statePreserved_refl st
    · rw [if_neg hpos]
      rcases hs : env.send_transaction
          { kind := TxKind.fundTransfer addr fundingAmount,
            nonce := st.backend_nonce, gas_limit := fundGasLimit,
            gas_price := fundGasPrice, max_priority_fee := none } with e | h
      · simp only [hs]
        exact ⟨Nat.le_succ _, fun _ hx => hx⟩
      · simp only [hs]
        rcases hr : env.get_transaction_receipt h with e | status
        · simp only [hr]
          exact ⟨Nat.le_succ _, fun _ hx => hx⟩
        · simp only [hr]
          by_cases hst : status = true
          · rw [if_pos hst]
            exact ⟨Nat.le_succ _, fun _ hx => hx⟩
          · rw [if_neg hst]
            exact ⟨Nat.le_succ _, fun _ hx => hx⟩

theorem handleTickEvent_preserved (env : LedgerEnv) (st : AppState) :
    statePreserved st (handleTickEvent env st).1 := by
  rcases hs : env.send_transaction
      { kind := TxKind.tick, nonce := st.backend_nonce,
        gas_limit := tickGasLimit, gas_price := maxFeePerGas,
        max_priority_fee := some maxPriorityFee } with e | h
  · simp only [handleTickEvent, hs]
    exact ⟨Nat.le_succ _, fun _ hx => hx⟩
  · simp only [handleTickEvent, hs]
    exact ⟨Nat.le_succ _, fun _ hx => hx⟩

theorem handleTickFailure_preserved (env : LedgerEnv) (baddr : Address)
    (msg : String) (st : AppState) :
    statePreserved st (handleTickFailure env baddr msg st) := by
  simp only [handleTickFailure]
  split
  · exact statePreserved_refl st
  · split
    · exact ⟨Nat.le_add_right _ 20, fun _ hx => hx⟩
    · rcases hq : env.get_transaction_count baddr with e | c
      · simp only [hq]
        exact statePreserved_refl st
      · simp only [hq]
        split
        next hlt => exact ⟨Nat.le_of_lt hlt, fun _ hx => hx⟩
        · exact statePreserved_refl st

theorem runTickEvent_preserved (env : LedgerEnv) (baddr : Address) (st : AppState) :
    statePreserved st (runTickEvent env baddr st).1 := by
  rcases ht : handleTickEvent env st with ⟨st1, txs, res⟩
  have h1 : statePreserved st st1 := by
    have hp := handleTickEvent_preserved env st
    rw [ht] at hp
    exact hp
  cases res with
  | ok u =>
    simp only [runTickEvent, ht]
    exact h1
  | error e =>
    simp only [runTickEvent, ht]
    exact statePreserved_trans h1
      (handleTickFailure_preserved env baddr (tickErrorMsg e) st1)

theorem resetStartSteps_preserved (env : LedgerEnv) (acc : SagaAcc) :
    statePreserved acc.state (resetStartSteps env acc).state := by
  simp only [resetStartSteps]
  rcases hsend : env.send_transaction
      { kind := TxKind.reset, nonce := acc.state.backend_nonce,
        gas_limit := restartGasLimit, gas_price := maxFeePerGas,
        max_priority_fee := some maxPriorityFee } with e | resetHash
  · simp only [hsend]
    exact ⟨Nat.le_succ _, fun _ hx => hx⟩
  · simp only [hsend]
    rcases hrc : env.get_transaction_receipt resetHash with e | resetStatus
    · simp only [hrc]
      exact ⟨Nat.le_succ _, fun _ hx => hx⟩
    · simp only [hrc]
      by_cases hst : resetStatus = true
      · rw [if_pos hst]
        rcases hsend2 : env.send_transaction
            { kind := TxKind.start gameDuration,
              nonce := acc.state.backend_nonce + 1,
              gas_limit := restartGasLimit, gas_price := maxFeePerGas,
              max_priority_fee := some maxPriorityFee } with e | startHash
        · simp only [hsend2]
          exact ⟨Nat.le_add_right _ 2, fun _ hx => hx⟩
        · simp only [hsend2]
          rcases hrc2 : env.get_transaction_receipt startHash with e | startStatus
          · simp only [hrc2]
            exact ⟨Nat.le_add_right _ 2, fun _ hx => hx⟩
          · simp only [hrc2]
            by_cases hst2 : startStatus = true
            · rw [if_pos hst2]
              exact ⟨Nat.le_add_right _ 2, fun _ hx => hx⟩
            · rw [if_neg hst2]
              exact ⟨Nat.le_add_right _ 2, fun _ hx => hx⟩
      · rw [if_neg hst]
        exact ⟨Nat.le_succ _, fun _ hx => hx⟩

theorem restartGame_preserved (env : LedgerEnv) (st : AppState) :
    statePreserved st (handleRestartGame env st).state := by
  rcases hfp : fundPlayersStep env (st.names.map Prod.fst)
      { state := st, sent := [], broadcast_msgs := [] } with ⟨acc, res⟩
  have h1 : statePreserved st acc.state := by
    have hp := fundPlayersStep_preserved env (st.names.map Prod.fst)
      { state := st, sent := [], broadcast_msgs := [] }
    rw [hfp] at hp
    exact hp
  cases res with
  | error e =>
    simp only [handleRestartGame, hfp]
    exact h1
  | ok u =>
    simp only [handleRestartGame, hfp]
    exact statePreserved_trans h1 (resetStartSteps_preserved env acc)

/-- C7: every modelled operation that mutates the shared state preserves
the invariants: the backend nonce never decreases (the resync-down guard
keeps the local value when the chain count is smaller) and the seen-logs
set only grows. -/
theorem c7_state_invariants :
    (∀ st log, statePreserved st (processLog st log).1)
    ∧ (∀ st logs, statePreserved st (processLogs st logs).1)
    ∧ (∀ env addr st, statePreserved st (handleFundEvent env addr st).state)
    ∧ (∀ env st, statePreserved st (handleTickEvent env st).1)
    ∧ (∀ env baddr msg st, statePreserved st (handleTickFailure env baddr msg st))
    ∧ (∀ env baddr st, statePreserved st (runTickEvent env baddr st).1)
    ∧ (∀ env st, statePreserved st (handleRestartGame env st).state) :=
  ⟨processLog_preserved, processLogs_preserved, handleFundEvent_preserved,
   handleTickEvent_preserved, handleTickFailure_preserved,
   runTickEvent_preserved, restartGame_preserved⟩

/-- C8: on connect a session receives, in this order, connection info,
current price, current block height, the game window status (GameStarted
with the window bounds while the window is still open), the full name
registry and the full position snapshot, and this whole block is a prefix
of the session transcript, before any broadcast-relayed message; for a
state with gameStartBlock 1000, gameEndBlock 2000 and height 1500 the
fourth message is GameStarted 1000 2000. -/
theorem c8_connect_initial_order (gas : GasCosts) (ca : String)
    (st : AppState) (bs : List ServerMessage)
    (hs : st.game_start_block = some 1000)
    (he : st.game_end_block = some 2000)
    (hh : st.current_block_height = 1500) :
    initialMessages gas ca st
      = [ServerMessage.ConnectionInfo ca gas.register gas.buy gas.sell,
         ServerMessage.CurrentPrice st.current_price,
         ServerMessage.CurrentBlockHeight 1500,
         ServerMessage.GameStarted 1000 2000]
        ++ st.names.map (fun p => ServerMessage.NameSet p.1 p.2)
        ++ st.balances.map (fun p =>
            ServerMessage.Position p.1 p.2 ((alLookup p.1 st.holdings).getD 0) 0)
    ∧ List.IsPrefix (initialMessages gas ca st) (sessionTranscript gas ca st bs) := by
  constructor
  · simp only [initialMessages, hs, he, hh]
    rw [if_neg (by norm_num)]
    simp [List.append_assoc]
  · exact ⟨bs, rfl⟩

theorem c8_connect_initial_order_witness :
    stConnect.game_start_block = some 1000
    ∧ stConnect.game_end_block = some 2000
    ∧ stConnect.current_block_height = 1500
    ∧ initialMessages gasMain "0xmarket" stConnect
        = [ServerMessage.ConnectionInfo "0xmarket" 115000 60000 60000,
           ServerMessage.CurrentPrice 55,
           ServerMessage.CurrentBlockHeight 1500,
           ServerMessage.GameStarted 1000 2000,
           ServerMessage.NameSet 1 "alice",
           ServerMessage.Position 1 10 4 0]
    ∧ List.IsPrefix (initialMessages gasMain "0xmarket" stConnect)
        (sessionTranscript gasMain "0xmarket" stConnect [ServerMessage.GameEnded]) :=
  ⟨rfl, rfl, rfl, rfl,
   (c8_connect_initial_order gasMain "0xmarket" stConnect
     [ServerMessage.GameEnded] rfl rfl rfl).2⟩

/-- C9: for every inbound GetNonce request whose address parses and whose
transaction count query succeeds, the session handler sends NonceResponse
on the session-private channel and also enqueues a Fund command for that
address into the backend executor queue. -/
theorem c9_getnonce_enqueues_fund (env : WsEnv) (address : String)
    (addr : Address) (n : Nat)
    (hp : env.parse_address address = some addr)
    (hn : env.get_transaction_count addr = Except.ok n) :
    handleGetNonce env address
      = ([ServerMessage.NonceResponse addr n], [BackendTxEvent.Fund addr]) := by
  simp only [handleGetNonce, hp, hn]

theorem c9_getnonce_enqueues_fund_witness :
    wsEnvOne.parse_address "0x0000000000000000000000000000000000000001" = some 1
    ∧ wsEnvOne.get_transaction_count 1 = Except.ok 7
    ∧ handleGetNonce wsEnvOne "0x0000000000000000000000000000000000000001"
        = ([ServerMessage.NonceResponse 1 7], [BackendTxEvent.Fund 1]) :=
  ⟨rfl, rfl,
   c9_getnonce_enqueues_fund wsEnvOne
     "0x0000000000000000000000000000000000000001" 1 7 rfl rfl⟩
